import Mathlib

/-!
Verification of the LinkedIn profile scraper (`linkedin_scraper` package).

The development shallowly embeds the repository's extraction and assembly
logic.  HTML documents are modelled as parse trees (the external
`BeautifulSoup(html, 'html.parser')` step is the boundary of the model: a
Python markup string corresponds to the forest it parses to, the empty
string corresponding to the empty forest).  Python dictionaries are
association lists in insertion order, the file system is an explicit
association of names to parsed contents, and functions that can raise
return `Except`/`Option`.
-/

namespace LinkedinScraper

/-- A parsed HTML node: either a text node or an element with a tag name,
attributes and children. -/
inductive Node where
  | text (s : String)
  | elem (tag : String) (attrs : List (String × String)) (children : List Node)

/-- A parsed document: the forest of top-level nodes. -/
abbrev Doc := List Node

/-- Occurrence test of one character list inside another. -/
def subListAt (pat : List Char) : List Char → Bool
  | [] => pat.isEmpty
  | c :: tl => pat.isPrefixOf (c :: tl) || subListAt pat tl

/-- Python `pat in s` substring test. -/
def strContains (s pat : String) : Bool :=
  subListAt pat.toList s.toList

/-- Python `s.startswith(pre)`. -/
def pyStartsWith (s pre : String) : Bool :=
  pre.toList.isPrefixOf s.toList

/-- Python `s.endswith(post)`. -/
def pyEndsWith (s post : String) : Bool :=
  post.toList.isSuffixOf s.toList

/-- Python `s.strip()`: drop leading and trailing whitespace. -/
def pyStrip (s : String) : String :=
  String.mk (((s.toList.dropWhile Char.isWhitespace).reverse.dropWhile Char.isWhitespace).reverse)

/-- Python `s.lower()`. -/
def pyLower (s : String) : String :=
  String.mk (s.toList.map Char.toLower)

/-- Replace every non-overlapping occurrence of `pat` (non-empty), left to
right; `skip` counts characters of an already-emitted occurrence still to
be dropped, keeping the recursion structural on the list. -/
def replaceGo (pat rep : List Char) : List Char → Nat → List Char
  | [], _ => []
  | _ :: tl, skip + 1 => replaceGo pat rep tl skip
  | c :: tl, 0 =>
    if pat.isPrefixOf (c :: tl) && !pat.isEmpty then
      rep ++ replaceGo pat rep tl (pat.length - 1)
    else c :: replaceGo pat rep tl 0

/-- Python `s.replace(pat, rep)` for non-empty `pat`. -/
def pyReplace (s pat rep : String) : String :=
  String.mk (replaceGo pat.toList rep.toList s.toList 0)

/-- Split a character list at the characters satisfying `p`
(Python `s.split(sep)` splitting semantics: no dropping of empties). -/
def splitOnPredAux (p : Char → Bool) : List Char → List (List Char)
  | [] => [[]]
  | x :: tl =>
    match splitOnPredAux p tl with
    | [] => [[x]]
    | h :: t => if p x then [] :: h :: t else (x :: h) :: t

/-- Python `s.split(sep)` for a one-character separator. -/
def splitOnChar (sep : Char) (s : String) : List String :=
  (splitOnPredAux (fun c => c == sep) s.toList).map String.mk

def Node.tag : Node → String
  | .text _ => ""
  | .elem t _ _ => t

def Node.attrs : Node → List (String × String)
  | .text _ => []
  | .elem _ a _ => a

def Node.children : Node → List Node
  | .text _ => []
  | .elem _ _ cs => cs

def Node.isElem : Node → Bool
  | .text _ => false
  | .elem _ _ _ => true

/-- Attribute lookup, as `tag.get(name)` / `tag[name]`. -/
def Node.attr (n : Node) (k : String) : Option String :=
  n.attrs.lookup k

/-- The multi-valued `class` attribute as BeautifulSoup exposes it:
whitespace-separated tokens. -/
def Node.classes (n : Node) : List String :=
  match n.attr "class" with
  | some v =>
    ((splitOnPredAux Char.isWhitespace v.toList).map String.mk).filter (fun c => !c.isEmpty)
  | none => []

/-- `class_=re.compile(r".*sub.*")`: some class token contains `sub`. -/
def Node.classContains (n : Node) (sub : String) : Bool :=
  n.classes.any (fun c => strContains c sub)

mutual
/-- All element nodes of a subtree in document (preorder) order, the root
included when it is an element. -/
def elemList : Node → List Node
  | .text _ => []
  | .elem t a cs => .elem t a cs :: elemForest cs

/-- All element nodes of a forest in document order. -/
def elemForest : List Node → List Node
  | [] => []
  | n :: ns => elemList n ++ elemForest ns
end

/-- `soup.find_all(...)`: every element of the document matching `p`,
in document order. -/
def docFindAll (d : Doc) (p : Node → Bool) : List Node :=
  (elemForest d).filter p

/-- `soup.find(...)`: the first match in document order. -/
def docFind (d : Doc) (p : Node → Bool) : Option Node :=
  (docFindAll d p).head?

/-- `tag.find_all(...)`: matching descendants of a node (itself excluded). -/
def Node.findAll (n : Node) (p : Node → Bool) : List Node :=
  (elemForest n.children).filter p

/-- `tag.find(...)`: first matching descendant. -/
def Node.findFirst (n : Node) (p : Node → Bool) : Option Node :=
  (n.findAll p).head?

mutual
/-- The strings of the text nodes of a subtree, in document order. -/
def nodeStrings : Node → List String
  | .text s => [s]
  | .elem _ _ cs => forestStrings cs

def forestStrings : List Node → List String
  | [] => []
  | n :: ns => nodeStrings n ++ forestStrings ns
end

/-- `tag.get_text(separator=sep, strip=True)`: each text fragment is
stripped, empty fragments are dropped, the rest joined with `sep`. -/
def Node.getTextSep (n : Node) (sep : String) : String :=
  String.intercalate sep (((nodeStrings n).map pyStrip).filter (fun s => !s.isEmpty))

/-- The `tag.text` property: raw concatenation of all text fragments. -/
def Node.rawText (n : Node) : String :=
  String.join (nodeStrings n)

/-- CSS tag-plus-classes selector (`select` / `select_one`): the tag name
must match and every listed class token must be present. -/
def cssMatch (tg : String) (tokens : List String) (n : Node) : Bool :=
  n.tag == tg && tokens.all (fun t => n.classes.contains t)

/-- `soup.select(sel)` for a `tag.class1.class2` selector. -/
def select (d : Doc) (tg : String) (tokens : List String) : List Node :=
  docFindAll d (cssMatch tg tokens)

/-- `soup.select_one(sel)`. -/
def selectOne (d : Doc) (tg : String) (tokens : List String) : Option Node :=
  (select d tg tokens).head?

/-- `tag.select(sel)` restricted to a node's descendants. -/
def Node.selectIn (n : Node) (tg : String) (tokens : List String) : List Node :=
  n.findAll (cssMatch tg tokens)

/-- `tag.select_one(sel)` restricted to a node's descendants. -/
def Node.selectOneIn (n : Node) (tg : String) (tokens : List String) : Option Node :=
  (n.selectIn tg tokens).head?

/-- Python truthiness of an optional string (`None` and `""` are falsy). -/
def optTruthyStr : Option String → Bool
  | none => false
  | some s => !s.isEmpty

/-- Python truthiness of an optional markup value; an empty document is
the parse of the empty (falsy) string. -/
def optTruthyDoc : Option Doc → Bool
  | none => false
  | some d => !d.isEmpty

/-- The constructor shared verbatim by `SkillsScraper`, `ExperienceScraper`,
`EducationScraper`, `LanguageScraper`, `LicenseCertificationScraper` and
`ProjectScraper`: prefer `html_content` when truthy, else read `html_file`
(raising `FileNotFoundError` when the file does not exist), else raise
`ValueError`.  `fs` models the file system as an association of paths to
parsed contents. -/
def scraperInit (fs : List (String × Doc)) (htmlFile : Option String)
    (htmlContent : Option Doc) : Except String Doc :=
  if optTruthyDoc htmlContent then .ok (htmlContent.getD [])
  else if optTruthyStr htmlFile then
    match fs.lookup (htmlFile.getD "") with
    | some d => .ok d
    | none => .error "FileNotFoundError"
  else .error "ValueError: Either html_file or html_content must be provided"

/-- `soup.find('main', attrs={'aria-label': label})`. -/
def findMain (soup : Doc) (label : String) : Option Node :=
  docFind soup (fun n => n.tag == "main" && n.attr "aria-label" == some label)

namespace SkillsScraper

/-- `SkillsScraper.extract_skills` on the parsed document. -/
def extract_skills (soup : Doc) : List String :=
  match findMain soup "Skills" with
  | none => []
  | some m => [m.getTextSep " | "]

end SkillsScraper

namespace ExperienceScraper

/-- `ExperienceScraper.extract_experience` on the parsed document. -/
def extract_experience (soup : Doc) : List String :=
  match findMain soup "Experience" with
  | none => []
  | some m => [m.getTextSep " | "]

end ExperienceScraper

namespace EducationScraper

/-- `EducationScraper.extract_education` on the parsed document. -/
def extract_education (soup : Doc) : List String :=
  match findMain soup "Education" with
  | none => []
  | some m => [m.getTextSep " | "]

end EducationScraper

namespace LanguageScraper

/-- `LanguageScraper.extract_languages`: tries the `Languages` anchor,
then the `Language` variant. -/
def extract_languages (soup : Doc) : List String :=
  match findMain soup "Languages" with
  | some m => [m.getTextSep " | "]
  | none =>
    match findMain soup "Language" with
    | some m => [m.getTextSep " | "]
    | none => []

end LanguageScraper

namespace LicenseCertificationScraper

/-- `LicenseCertificationScraper.extract_licenses_certifications`: tries
three `aria-label` variants in order. -/
def extract_licenses_certifications (soup : Doc) : List String :=
  match findMain soup "Licenses & certifications" with
  | some m => [m.getTextSep " | "]
  | none =>
    match findMain soup "Licenses & Certifications" with
    | some m => [m.getTextSep " | "]
    | none =>
      match findMain soup "Licenses" with
      | some m => [m.getTextSep " | "]
      | none => []

end LicenseCertificationScraper

namespace ProjectScraper

/-- `ProjectScraper.extract_projects` on the parsed document. -/
def extract_projects (soup : Doc) : List String :=
  match findMain soup "Projects" with
  | none => []
  | some m => [m.getTextSep " | "]

end ProjectScraper

/-! ## `about_scraper.py`: company about-page extraction -/

/-- The `company_info` record built by `extract_company_info`, plus the
`source` key added by `process_about_file`. -/
structure CompanyInfo where
  name : String
  overview : String
  website : String
  industry : String
  company_size : String
  headquarters : String
  founded : String
  specialties : String
  verified_date : String
  source : String
deriving DecidableEq, Repr

/-- The initial all-empty record (`source` not yet set). -/
def emptyCompanyInfo : CompanyInfo :=
  ⟨"", "", "", "", "", "", "", "", "", ""⟩

/-- `any(company_info.values())` over the nine extraction fields (the
`source` key is added only later). -/
def anyFieldSet (ci : CompanyInfo) : Bool :=
  !ci.name.isEmpty || !ci.overview.isEmpty || !ci.website.isEmpty ||
  !ci.industry.isEmpty || !ci.company_size.isEmpty || !ci.headquarters.isEmpty ||
  !ci.founded.isEmpty || !ci.specialties.isEmpty || !ci.verified_date.isEmpty

/-- The `name_selectors` list: class tokens of the four `h1` selectors. -/
def nameSelectors : List (List String) :=
  [["org-top-card-summary__title"],
   ["org-top-card-summary__title", "t-24", "t-black", "t-bold"],
   ["ember-view", "t-24", "t-black", "t-bold"],
   ["text-heading-xlarge", "inline", "t-24", "v-align-middle", "break-words"]]

/-- The `overview_selectors` list as tag/class-token pairs. -/
def overviewSelectors : List (String × List String) :=
  [("p", ["break-words", "white-space-pre-wrap"]),
   ("div", ["org-about-us-organization-description__text"]),
   ("div", ["org-about-module__description"]),
   ("div", ["org-about-module__text"]),
   ("div", ["org-page-details__description-content"])]

/-- The company-name loop: first `h1` selector that matches wins. -/
def pickName (d : Doc) : List (List String) → String
  | [] => ""
  | sel :: rest =>
    match selectOne d "h1" sel with
    | some n => n.getTextSep ""
    | none => pickName d rest

/-- The overview loop: first selector whose matches yield non-empty joined
text wins (a selector that matches tags but yields empty text is skipped). -/
def pickOverview (d : Doc) : List (String × List String) → String
  | [] => ""
  | (tg, toks) :: rest =>
    let tags := select d tg toks
    if tags.isEmpty then pickOverview d rest
    else
      let overviewText := String.intercalate "\n" (tags.map (fun t => t.getTextSep "\n"))
      if overviewText.isEmpty then pickOverview d rest else overviewText

/-- One `dt`/`dd` pair of the definition-list pass: the lowercased label is
matched by substring against the field keywords, in source order. -/
def dlUpdate (ci : CompanyInfo) (label value : String) : CompanyInfo :=
  if strContains label "website" then { ci with website := value }
  else if strContains label "industry" then { ci with industry := value }
  else if strContains label "company size" || strContains label "employees" then
    { ci with company_size := value }
  else if strContains label "headquarters" || strContains label "location" then
    { ci with headquarters := value }
  else if strContains label "founded" || strContains label "year founded" then
    { ci with founded := value }
  else if strContains label "specialties" then { ci with specialties := value }
  else if strContains label "verified" then { ci with verified_date := value }
  else ci

/-- All zipped `dt`/`dd` label-value pairs of every `dl` of the document,
labels lowercased and stripped, values joined with newlines. -/
def dlPairs (d : Doc) : List (String × String) :=
  (docFindAll d (fun n => n.tag == "dl")).flatMap (fun dl =>
    (List.zip (dl.findAll (fun n => n.tag == "dt")) (dl.findAll (fun n => n.tag == "dd"))).map
      (fun p => (pyLower (p.1.getTextSep ""), p.2.getTextSep "\n")))

/-- The fallback pass's candidate containers: sections or divs one of whose
class tokens contains `org-about-module` or `org-page-details`. -/
def fallbackSections (d : Doc) : List Node :=
  docFindAll d (fun n =>
    (n.tag == "section" || n.tag == "div") &&
    n.classes.any (fun c => strContains c "org-about-module" || strContains c "org-page-details"))

/-- One step of the fallback heading+content pass. -/
def fbUpdate (ci : CompanyInfo) (s : Node) : CompanyInfo :=
  match s.findFirst (fun n => n.tag == "h2" || n.tag == "h3") with
  | none => ci
  | some h =>
    let label := pyLower (h.getTextSep "")
    match s.findFirst (fun n =>
        (n.tag == "p" || n.tag == "div") &&
        n.classes.any (fun c => strContains c "description" || strContains c "text")) with
    | none => ci
    | some cd =>
      let value := cd.getTextSep "\n"
      if strContains label "about" && ci.overview.isEmpty then { ci with overview := value }
      else if strContains label "website" then { ci with website := value }
      else if strContains label "industry" then { ci with industry := value }
      else if strContains label "size" || strContains label "employees" then
        { ci with company_size := value }
      else if strContains label "headquarters" || strContains label "location" then
        { ci with headquarters := value }
      else if strContains label "founded" then { ci with founded := value }
      else if strContains label "specialties" then { ci with specialties := value }
      else ci

/-- `extract_company_info`: name and overview selector chains, then the
definition-list pass; the heading+content fallback pass runs only when
every field is still empty. -/
def extract_company_info (d : Doc) : CompanyInfo :=
  let ci0 := { emptyCompanyInfo with
    name := pickName d nameSelectors,
    overview := pickOverview d overviewSelectors }
  let ci1 := (dlPairs d).foldl (fun ci p => dlUpdate ci p.1 p.2) ci0
  if anyFieldSet ci1 then ci1
  else (fallbackSections d).foldl fbUpdate ci1

/-- Input of `process_about_file`: either a path naming an existing file
(with its parsed contents) or raw markup passed in memory.  The dynamic
`os.path.exists` dispatch of the source is reflected in the constructor. -/
inductive AboutSource where
  | file (path : String) (d : Doc)
  | content (d : Doc)

/-- `os.path.basename`. -/
def basename (p : String) : String :=
  ((splitOnChar '/' p).getLast?).getD p

/-- `s.split('_')[0]`. -/
def splitFirstUnderscore (s : String) : String :=
  ((splitOnChar '_' s).head?).getD s

/-- Python `str.title()`: a letter is uppercased when the preceding
character is not a letter and lowercased otherwise. -/
def pyTitle (s : String) : String :=
  String.mk (go s.toList false)
where
  go : List Char → Bool → List Char
  | [], _ => []
  | c :: cs, prevCased =>
    if c.isAlpha then
      (if prevCased then c.toLower else c.toUpper) :: go cs true
    else
      c :: go cs false

/-- `process_about_file`: reads the input, rejects empty markup, extracts
the record, records the source identifier, and synthesizes a name from the
filename when extraction yielded neither name nor overview (only for file
inputs whose basename contains an underscore). -/
def process_about_file (src : AboutSource) : Option CompanyInfo :=
  let html : Doc := match src with | .file _ d => d | .content d => d
  let sourceName : String :=
    match src with | .file p _ => basename p | .content _ => "in_memory_content"
  if html.isEmpty then none
  else
    let ci := { extract_company_info html with source := sourceName }
    if ci.name.isEmpty && ci.overview.isEmpty then
      if sourceName ≠ "in_memory_content" && strContains sourceName "_" then
        let companyName := pyTitle (pyReplace (splitFirstUnderscore sourceName) "-" " ")
        if companyName.isEmpty then some ci else some { ci with name := companyName }
      else some ci
    else some ci

/-! ## `extract_current_companies.py` -/

/-- `if not url.startswith('http'): url = f"https://www.linkedin.com{url}"`. -/
def normalizeUrl (u : String) : String :=
  if pyStartsWith u "http" then u else "https://www.linkedin.com" ++ u

/-- The experience list items: `soup.select('li.pvs-list__paged-list-item')`. -/
def companyItems (d : Doc) : List Node :=
  select d "li" ["pvs-list__paged-list-item"]

/-- The date/caption element of a list item:
`item.select_one('span.pvs-entity__caption-wrapper')`. -/
def itemCaption (item : Node) : Option Node :=
  item.selectOneIn "span" ["pvs-entity__caption-wrapper"]

/-- The first anchor of a list item whose `href` is truthy and contains
`/company/`. -/
def itemCompanyLink (item : Node) : Option Node :=
  item.findFirst (fun n =>
    n.tag == "a" &&
    (match n.attr "href" with
     | some h => !h.isEmpty && strContains h "/company/"
     | none => false))

/-- The loop body of `extract_current_companies` for one list item: a URL
is produced only when the caption exists, contains `present`
case-insensitively, and a company link with an `href` is found. -/
def itemUrl (item : Node) : Option String :=
  match itemCaption item with
  | none => none
  | some dateEl =>
    if strContains (pyLower (dateEl.getTextSep "")) "present" then
      match itemCompanyLink item with
      | some link =>
        match link.attr "href" with
        | some url => some (normalizeUrl url)
        | none => none
      | none => none
    else none

/-- The URLs appended by the loop, in item order. -/
def collectCompanyUrls (d : Doc) : List String :=
  (companyItems d).filterMap itemUrl

/-- Input of `extract_current_companies`: an existing file path, a markup
string, or a non-string value (which makes the guarded body raise
`ValueError`). -/
inductive HtmlSource where
  | path (name : String) (d : Doc)
  | content (d : Doc)
  | notStr

/-- `extract_current_companies`: on success the collected URLs are returned
as `set(company_urls)` (modelled as the duplicate-free list of first
occurrences); the blanket `except` turns any internal error into the empty
list. -/
def extract_current_companies (src : HtmlSource) : List String :=
  match src with
  | .notStr => []
  | .path _ d => (collectCompanyUrls d).dedup
  | .content d => (collectCompanyUrls d).dedup

/-! ## `profile_builder.py`: the assembler (`LinkedInProfileScraper`) -/

/-- The assembler's state after `__init__`: the in-memory document mapping
(`html_content_dict`, in insertion order), the parsed base profile
(`soup`), the optional session directory, and the relevant pieces of the
file system: the session directory's files, its `company_about_pages`
subdirectory (`none` when absent) and the legacy
`html_pages/company_about_pages` directory (`none` when absent). -/
structure Builder where
  html_content_dict : List (String × Doc)
  soup : Doc
  session_dir : Option String
  sessionFs : List (String × Doc)
  sessionCompanyFs : Option (List (String × Doc))
  legacyFs : Option (List (String × Doc))

/-- The per-section parameters of the six `extract_*` section methods,
which are textually identical up to these values: the header-text test,
the in-memory key, the session file name, the expanded-document extractor
delegated to, and whether the method returns right after appending the
inline text (`extract_experiences`/`extract_education` keep looping, the
other four return). -/
structure SectionSpec where
  headerMatch : String → Bool
  memKey : String
  fileName : String
  expandFn : Doc → List String
  stopAfterFirst : Bool

/-- `find_all('section', class_=re.compile(r'.*pv-profile-card.*'))`. -/
def profileSections (soup : Doc) : List Node :=
  docFindAll soup (fun n => n.tag == "section" && n.classContains "pv-profile-card")

/-- `section.find(['h2', 'h1'], class_=re.compile(r'.*heading.*'))`. -/
def sectionHeader (s : Node) : Option Node :=
  s.findFirst (fun n => (n.tag == "h2" || n.tag == "h1") && n.classContains "heading")

/-- Python truthiness of the document dictionary. -/
def dictTruthy (d : List (String × Doc)) : Bool :=
  !d.isEmpty

/-- The `try` block around section expansion: `some r` means the delegated
scraper ran and returned `r`; `none` means no expansion source was
available, or the scraper constructor raised and the exception was caught
(an in-memory expanded document that is empty markup makes the constructor
raise `ValueError`; the in-memory branch is taken only when the dictionary
is truthy and holds the key, the file branch only when `session_dir` is
truthy and the file exists). -/
def tryExpand (spec : SectionSpec) (b : Builder) : Option (List String) :=
  if dictTruthy b.html_content_dict && (b.html_content_dict.lookup spec.memKey).isSome then
    match b.html_content_dict.lookup spec.memKey with
    | some d =>
      match scraperInit b.sessionFs none (some d) with
      | .ok d2 => some (spec.expandFn d2)
      | .error _ => none
    | none => none
  else if optTruthyStr b.session_dir then
    match b.sessionFs.lookup spec.fileName with
    | some _ =>
      match scraperInit b.sessionFs (some spec.fileName) none with
      | .ok d2 => some (spec.expandFn d2)
      | .error _ => none
    | none => none
  else none

/-- The loop of a section method over the profile-card sections: skip
sections without a matching header; at a matching header, flatten the
section text, and when it contains `Show all` attempt expansion — a
successful expansion's result is returned outright (discarding anything
accumulated), otherwise the inline text is appended. -/
def sectionLoop (spec : SectionSpec) (b : Builder) :
    List Node → List String → List String
  | [], acc => acc
  | s :: rest, acc =>
    match sectionHeader s with
    | none => sectionLoop spec b rest acc
    | some h =>
      if spec.headerMatch (h.getTextSep "") then
        let fullText := s.getTextSep " | "
        if strContains fullText "Show all" then
          match tryExpand spec b with
          | some r => r
          | none =>
            if spec.stopAfterFirst then acc ++ [fullText]
            else sectionLoop spec b rest (acc ++ [fullText])
        else
          if spec.stopAfterFirst then acc ++ [fullText]
          else sectionLoop spec b rest (acc ++ [fullText])
      else sectionLoop spec b rest acc

/-- The common shape of the six section methods. -/
def extractSection (spec : SectionSpec) (b : Builder) : List String :=
  sectionLoop spec b (profileSections b.soup) []

def experiencesSpec : SectionSpec :=
  ⟨fun t => strContains t "Experience", "experiences_expanded_html",
   "experiences_expanded_html.txt", ExperienceScraper.extract_experience, false⟩

def educationSpec : SectionSpec :=
  ⟨fun t => strContains t "Education", "education_expanded_html",
   "education_expanded_html.txt", EducationScraper.extract_education, false⟩

def skillsSpec : SectionSpec :=
  ⟨fun t => strContains t "Skills", "skills_expanded_html",
   "skills_expanded_html.txt", SkillsScraper.extract_skills, true⟩

def languagesSpec : SectionSpec :=
  ⟨fun t => strContains t "Languages", "languages_expanded_html",
   "languages_expanded_html.txt", LanguageScraper.extract_languages, true⟩

def licensesSpec : SectionSpec :=
  ⟨fun t => strContains t "Licenses" || strContains t "Certifications",
   "licenses_and_certifications_expanded_html",
   "licenses_and_certifications_expanded_html.txt",
   LicenseCertificationScraper.extract_licenses_certifications, true⟩

def projectsSpec : SectionSpec :=
  ⟨fun t => strContains t "Projects", "projects_expanded_html",
   "projects_expanded_html.txt", ProjectScraper.extract_projects, true⟩

/-- The six section methods in the order `scrape_profile` invokes them. -/
def sectionSpecs : List SectionSpec :=
  [experiencesSpec, educationSpec, skillsSpec, languagesSpec, licensesSpec, projectsSpec]

def Builder.extract_experiences (b : Builder) : List String :=
  extractSection experiencesSpec b

def Builder.extract_education (b : Builder) : List String :=
  extractSection educationSpec b

def Builder.extract_skills (b : Builder) : List String :=
  extractSection skillsSpec b

def Builder.extract_languages (b : Builder) : List String :=
  extractSection languagesSpec b

def Builder.extract_licenses_certifications (b : Builder) : List String :=
  extractSection licensesSpec b

def Builder.extract_projects (b : Builder) : List String :=
  extractSection projectsSpec b

/-- `re.sub(r'^\(\d+\)\s*', '', name)`: remove one leading parenthesized
number and the whitespace after it. -/
def stripLeadingParenNum (s : String) : String :=
  match s.toList with
  | '(' :: rest =>
    match rest.takeWhile Char.isDigit, rest.dropWhile Char.isDigit with
    | [], _ => s
    | _ :: _, ')' :: rest3 => String.mk (rest3.dropWhile Char.isWhitespace)
    | _ :: _, _ => s
  | _ => s

/-- `Builder.extract_name`: the `<title>` text with the ` | LinkedIn`
suffix removed and a leading counter stripped, else an
`h1.text-heading-xlarge` fallback, else `None`. -/
def Builder.extract_name (b : Builder) : Option String :=
  match docFind b.soup (fun n => n.tag == "title") with
  | some t =>
    some (pyStrip (stripLeadingParenNum (pyStrip (pyReplace t.rawText " | LinkedIn" ""))))
  | none =>
    match docFind b.soup (fun n => n.tag == "h1" && n.classContains "text-heading-xlarge") with
    | some h => some (pyStrip h.rawText)
    | none => none

/-- `Builder.extract_headline`: text of the first
`div.text-body-medium`-classed element. -/
def Builder.extract_headline (b : Builder) : Option String :=
  match docFind b.soup (fun n => n.tag == "div" && n.classContains "text-body-medium") with
  | some h => some (pyStrip h.rawText)
  | none => none

/-- `soup.find(p)` returning also the found node's following siblings, so
that `find_next_sibling` walks can continue from it. -/
def findWithSiblings (p : Node → Bool) : List Node → Option (Node × List Node)
  | [] => none
  | .text _ :: rest => findWithSiblings p rest
  | .elem t a cs :: rest =>
    if p (.elem t a cs) then some (.elem t a cs, rest)
    else
      match findWithSiblings p cs with
      | some r => some r
      | none => findWithSiblings p rest

/-- `tag.find_next_sibling(...)`: the first following element sibling
matching `p`, with the siblings after it. -/
def findNextSibling (p : Node → Bool) : List Node → Option (Node × List Node)
  | [] => none
  | n :: rest =>
    if n.isElem && p n then some (n, rest) else findNextSibling p rest

/-- `' '.join(text.split())` — collapse whitespace runs. -/
def pyWords (s : String) : List String :=
  ((splitOnPredAux Char.isWhitespace s.toList).map String.mk).filter (fun w => !w.isEmpty)

/-- The local `clean_text` helper of `extract_about`: `None` for falsy
input, else entity replacement and whitespace normalization. -/
def clean_text (t : String) : Option String :=
  if t.isEmpty then none
  else some (pyStrip (String.intercalate " " (pyWords (pyReplace t "&amp;" "&"))))

/-- Python `x or y` over optional strings (`None` and `""` are falsy). -/
def pyOrStr (a b : Option String) : Option String :=
  match a with
  | some s => if s.isEmpty then b else a
  | none => b

/-- The sibling walk of `extract_about` after the `div#about` anchor was
located: a class-pattern-matched container sibling, then the
`display-flex ph5 pv3` content sibling, then the `inline-show-more-text`
descendant, preferring the visible span's text over the visually hidden
duplicate. -/
def aboutFromSiblings (siblings : List Node) : Option String :=
  match findNextSibling (fun n =>
      n.tag == "div" && n.classContains "escTwakvXlHtkbumLjULwyNILFHqFbANpitf") siblings with
  | none => none
  | some (_, rest2) =>
    match findNextSibling (fun n =>
        n.tag == "div" && n.attr "class" == some "display-flex ph5 pv3") rest2 with
    | none => none
    | some (contentDiv, _) =>
      match contentDiv.findFirst (fun n =>
          n.tag == "div" && n.classContains "inline-show-more-text") with
      | none => none
      | some textDiv =>
        let visibleText :=
          match textDiv.findFirst (fun n =>
              n.tag == "span" && n.attr "aria-hidden" == some "true") with
          | some sp => sp.getTextSep " "
          | none => ""
        let hiddenText :=
          match textDiv.findFirst (fun n =>
              n.tag == "span" && n.classes.contains "visually-hidden") with
          | some sp => sp.getTextSep " "
          | none => ""
        match pyOrStr (clean_text visibleText) (clean_text hiddenText) with
        | some s => if s.isEmpty then none else some s
        | none => none

/-- `Builder.extract_about`. -/
def Builder.extract_about (b : Builder) : Option String :=
  match findWithSiblings (fun n => n.tag == "div" && n.attr "id" == some "about") b.soup with
  | none => none
  | some (_, siblings) => aboutFromSiblings siblings

/-- The key filter of `extract_companies`' in-memory path. -/
def companyKeyFilter (k : String) : Bool :=
  pyStartsWith k "company_" && pyEndsWith k "_html" &&
  !(pyEndsWith k "_main_html") && !(pyEndsWith k "_about_html")

/-- `company_keys`: the dictionary's keys, in insertion order, that pass
the filter. -/
def Builder.company_keys (b : Builder) : List String :=
  (b.html_content_dict.map Prod.fst).filter companyKeyFilter

/-- The in-memory company loop: process each key's content, and append the
record only when processing succeeded, the extracted name is non-empty and
the name was not seen before (`processed_companies`). -/
def companiesLoop (dict : List (String × Doc)) :
    List String → List CompanyInfo → List String → List CompanyInfo
  | [], acc, _ => acc
  | k :: ks, acc, processed =>
    match dict.lookup k with
    | none => companiesLoop dict ks acc processed
    | some d =>
      match process_about_file (.content d) with
      | some ci =>
        if !ci.name.isEmpty && !(processed.contains ci.name) then
          companiesLoop dict ks (acc ++ [ci]) (ci.name :: processed)
        else companiesLoop dict ks acc processed
      | none => companiesLoop dict ks acc processed

/-- The directory fallbacks: every `*_about.txt` file processed as a file
input, keeping the records that processed successfully (no name filter and
no de-duplication on these paths). -/
def aboutFilesCompanies (files : List (String × Doc)) : List CompanyInfo :=
  (files.filter (fun f => pyEndsWith f.1 "_about.txt")).filterMap
    (fun f => process_about_file (.file f.1 f.2))

/-- `Builder.extract_companies`: the in-memory path runs when the
dictionary is truthy and has company keys; otherwise the session
directory's `company_about_pages` (when the directory exists), otherwise
the legacy directory (when it exists), otherwise the empty list. -/
def Builder.extract_companies (b : Builder) : List CompanyInfo :=
  if dictTruthy b.html_content_dict && !b.company_keys.isEmpty then
    companiesLoop b.html_content_dict b.company_keys [] []
  else if optTruthyStr b.session_dir && b.sessionCompanyFs.isSome then
    aboutFilesCompanies (b.sessionCompanyFs.getD [])
  else
    match b.legacyFs with
    | some files => aboutFilesCompanies files
    | none => []

/-- A value of the assembled profile dictionary. -/
inductive PValue where
  | str (s : String)
  | null
  | list (l : List String)
  | companies (l : List CompanyInfo)
deriving DecidableEq, Repr

/-- `Option String` to the serialized scalar (`None` becomes `null`). -/
def scalarValue : Option String → PValue
  | some s => .str s
  | none => .null

/-- `Builder.scrape_profile`: the fixed-key profile dictionary literal. -/
def Builder.scrape_profile (b : Builder) : List (String × PValue) :=
  [("name", scalarValue b.extract_name),
   ("headline", scalarValue b.extract_headline),
   ("about", scalarValue b.extract_about),
   ("experiences", .list b.extract_experiences),
   ("education", .list b.extract_education),
   ("skills", .list b.extract_skills),
   ("languages", .list b.extract_languages),
   ("licenses-certifications", .list b.extract_licenses_certifications),
   ("projects", .list b.extract_projects),
   ("current_companies", .companies b.extract_companies)]

/-! ## `profile_scraper.py`: the navigation controller's resource handling -/

/-- The inputs that determine the control flow of
`LinkedinProfileScraper.scrape_profile`: explicit credentials, the
environment variables, whether `LinkedinAuthenticator.login` succeeds, and
whether the scraping body after authentication completes without
raising. -/
structure ScrapeEnv where
  email : Option String
  password : Option String
  envEmail : Option String
  envPassword : Option String
  loginOk : Bool
  bodyOk : Bool

/-- The observable outcome of one `scrape_profile` call: the returned or
raised result, whether authentication handed a browser to the controller,
and whether `context.close()` / `browser.close()` were reached. -/
structure ScrapeOutcome where
  result : Except String Bool
  browserAcquired : Bool
  contextClosed : Bool
  browserClosed : Bool
deriving Repr

/-- `if not email: email = os.environ.get('LINKEDIN_EMAIL')`. -/
def resolveCred (arg env : Option String) : Option String :=
  if optTruthyStr arg then arg else env

def exceptIsOk : Except String Bool → Bool
  | .ok _ => true
  | .error _ => false

/-- `LinkedinProfileScraper.scrape_profile` (lines 39-124): validate
credentials (raising `ValueError` before any browser work), authenticate
(a failing login raises out of the method with no browser handle held by
it), then run the body inside `try`; the successful path closes the
context and the browser and returns `True`; the `except` path logs and
re-raises without closing either. -/
def scrape_profile (e : ScrapeEnv) : ScrapeOutcome :=
  let email := resolveCred e.email e.envEmail
  let password := resolveCred e.password e.envPassword
  if !(optTruthyStr email) || !(optTruthyStr password) then
    ⟨.error "ValueError: LinkedIn credentials must be provided", false, false, false⟩
  else if !e.loginOk then
    ⟨.error "RuntimeError: LinkedIn login failed", false, false, false⟩
  else if e.bodyOk then
    ⟨.ok true, true, true, true⟩
  else
    ⟨.error "Profile scraping failed", true, false, false⟩

/-! ## Derived definitions used by the statements -/

/-- The test the section loop applies to each profile-card section: a
header was found and its text matches the section's header predicate. -/
def sectionMatches (spec : SectionSpec) (s : Node) : Bool :=
  match sectionHeader s with
  | some h => spec.headerMatch (h.getTextSep "")
  | none => false

/-- The ten fixed keys of the assembled profile record. -/
def profileKeys : List String :=
  ["name", "headline", "about", "experiences", "education", "skills",
   "languages", "licenses-certifications", "projects", "current_companies"]

/-- The records the in-memory company loop considers appendable: keys in
order, each processed, kept only when processing succeeded with a
non-empty name. -/
def validInfos (dict : List (String × Doc)) (ks : List String) : List CompanyInfo :=
  ks.filterMap (fun k =>
    match dict.lookup k with
    | some d =>
      match process_about_file (.content d) with
      | some ci => if ci.name.isEmpty then none else some ci
      | none => none
    | none => none)

/-- Modelled from the spec: "de-duplicate by resulting company name,
keeping first occurrence" — keep each record whose name has not been seen
yet, in order. -/
def dedupByName : List CompanyInfo → List String → List CompanyInfo
  | [], _ => []
  | ci :: rest, seen =>
    if seen.contains ci.name then dedupByName rest seen
    else ci :: dedupByName rest (ci.name :: seen)

/-! ## Concrete fixture documents for the witnesses -/

/-- A truncated Experience profile card (contains `Show all`). -/
def c1Section : Node :=
  .elem "section" [("class", "artdeco-card pv-profile-card ember-view")] [
    .elem "h2" [("class", "pvs-header__title heading")] [.text "Experience"],
    .elem "div" [] [.text "Acme Corp Engineer 2020 - Present"],
    .elem "a" [] [.text "Show all 7 experiences"]]

/-- A base profile document whose only card is the truncated Experience
card. -/
def c1Base : Doc := [c1Section]

/-- An expanded experiences document. -/
def c1Expanded : Doc :=
  [.elem "main" [("aria-label", "Experience")] [.text "Full experience history"]]

/-- A stale same-named session file for the experiences section. -/
def c1FileDoc : Doc :=
  [.elem "main" [("aria-label", "Experience")] [.text "Stale file version"]]

/-- An assembler state where both the in-memory expanded document and the
same-named session file exist. -/
def c1Builder : Builder :=
  { html_content_dict := [("profile_html", c1Base), ("experiences_expanded_html", c1Expanded)],
    soup := c1Base,
    session_dir := some "/tmp/linkedin_session",
    sessionFs := [("experiences_expanded_html.txt", c1FileDoc)],
    sessionCompanyFs := none,
    legacyFs := none }

/-- Company link of a current ("Present") experience entry. -/
def c3Link : Node := .elem "a" [("href", "/company/acme/")] [.text "Acme Corp"]

/-- Caption of a current experience entry. -/
def c3Cap : Node :=
  .elem "span" [("class", "pvs-entity__caption-wrapper")] [.text "Jan 2020 - Present"]

/-- An experience list item whose caption contains `Present`. -/
def c3ItemPresent : Node :=
  .elem "li" [("class", "pvs-list__paged-list-item")] [c3Cap, c3Link]

/-- An experiences document with three entries of which exactly one
caption contains `Present`. -/
def c3ExpDoc : Doc :=
  [c3ItemPresent,
   .elem "li" [("class", "pvs-list__paged-list-item")] [
     .elem "span" [("class", "pvs-entity__caption-wrapper")] [.text "2018 - 2019"],
     .elem "a" [("href", "/company/oldco/")] [.text "OldCo"]],
   .elem "li" [("class", "pvs-list__paged-list-item")] [
     .elem "span" [("class", "pvs-entity__caption-wrapper")] [.text "Mar 2015 - Dec 2017"],
     .elem "a" [("href", "/company/elderco/")] [.text "ElderCo"]]]

/-- A company about-document with a definition list pairing `Website` with
`example.com`. -/
def c6DlDoc : Doc :=
  [.elem "body" [] [
     .elem "dl" [] [
       .elem "dt" [] [.text "Website"],
       .elem "dd" [] [.text "example.com"]]]]

/-- A company about-document with no definition list: an
`org-about-module` section whose heading is `About`, followed by a
description content block. -/
def c6FallbackDoc : Doc :=
  [.elem "section" [("class", "org-about-module mt2")] [
     .elem "h2" [] [.text "About"],
     .elem "p" [("class", "description")] [.text "We build reliable software."]]]

/-- A document from which no company field at all can be extracted. -/
def c7Doc : Doc := [.elem "div" [] [.text "hello"]]

/-- A company document with an extractable overview but no extractable
name. -/
def c10OverviewDoc : Doc :=
  [.elem "p" [("class", "break-words white-space-pre-wrap")] [.text "Great products."]]

/-- An assembler state holding one in-memory company document whose
extracted name is empty. -/
def c10Builder : Builder :=
  { html_content_dict := [("company_0_html", c10OverviewDoc)],
    soup := [],
    session_dir := none,
    sessionFs := [],
    sessionCompanyFs := none,
    legacyFs := none }

/-- A company about-document whose extracted name is `Acme`. -/
def c8DocA : Doc :=
  [.elem "h1" [("class", "org-top-card-summary__title")] [.text "Acme"]]

/-- A second company about-document that also extracts the name `Acme`. -/
def c8DocB : Doc :=
  [.elem "h1" [("class", "org-top-card-summary__title")] [.text "Acme"],
   .elem "p" [("class", "break-words white-space-pre-wrap")] [.text "Other overview."]]

/-- An assembler state with raw and resolved company keys in memory plus a
session about-file, exercising key filtering and de-duplication. -/
def c8Builder : Builder :=
  { html_content_dict :=
      [("profile_html", c1Base),
       ("company_0_main_html", c8DocA),
       ("company_0_about_html", c8DocA),
       ("company_0_html", c8DocA),
       ("company_1_html", c8DocB)],
    soup := c1Base,
    session_dir := some "/tmp/linkedin_session",
    sessionFs := [],
    sessionCompanyFs := some [("acme_about.txt", c8DocA)],
    legacyFs := none }

/-! ## Theorems -/

/-- C5 counterexample: with valid credentials, successful authentication
and a scraping body that raises, `scrape_profile` propagates the error
with neither `context.close()` nor `browser.close()` reached, although a
browser had been acquired — there is no scoped release on the failure
path. -/
theorem C5_counterexample :
    (scrape_profile ⟨some "user@mail.test", some "pw", none, none, true, false⟩).result =
      .error "Profile scraping failed" ∧
    (scrape_profile ⟨some "user@mail.test", some "pw", none, none, true, false⟩).browserAcquired
      = true ∧
    (scrape_profile ⟨some "user@mail.test", some "pw", none, none, true, false⟩).contextClosed
      = false ∧
    (scrape_profile ⟨some "user@mail.test", some "pw", none, none, true, false⟩).browserClosed
      = false :=
  ⟨rfl, rfl, rfl, rfl⟩

/-- C5 amended: the controller releases the context and the browser
exactly on the successful path — both closes are reached iff the call
returns success; every raising path (missing credentials, failed login,
failed scraping body) propagates without reaching a close. -/
theorem C5_release_only_on_success (e : ScrapeEnv) :
    (scrape_profile e).contextClosed = exceptIsOk (scrape_profile e).result ∧
    (scrape_profile e).browserClosed = exceptIsOk (scrape_profile e).result := by
  simp only [scrape_profile]
  split
  · exact ⟨rfl, rfl⟩
  · split
    · exact ⟨rfl, rfl⟩
    · split
      · exact ⟨rfl, rfl⟩
      · exact ⟨rfl, rfl⟩

/-- C5 witness for the amended statement at a concrete environment. -/
theorem C5_release_only_on_success_witness :
    (scrape_profile ⟨none, none, some "env@mail.test", some "pw", true, true⟩).contextClosed =
      exceptIsOk (scrape_profile ⟨none, none, some "env@mail.test", some "pw", true, true⟩).result :=
  (C5_release_only_on_success ⟨none, none, some "env@mail.test", some "pw", true, true⟩).1

/-- C6: a definition list pairing the label `Website` with the value
`example.com` populates `CompanyInfo.website` with `example.com`; with no
definition list, an `org-about-module` section with an `About` heading
followed by a description content block populates `CompanyInfo.overview`
through the fallback pass. -/
theorem C6_website_and_overview_extraction :
    (extract_company_info c6DlDoc).website = "example.com" ∧
    (extract_company_info c6FallbackDoc).overview = "We build reliable software." :=
  ⟨by decide, by decide⟩

/-- C7: when extraction yields neither name nor overview and the source is
the existing file `acme-corp_about.txt`, `process_about_file` synthesizes
the company name "Acme Corp" (text before the underscore, hyphens replaced
by spaces, title-cased). -/
theorem C7_filename_name_synthesis (d : Doc)
    (hne : d ≠ [])
    (hname : (extract_company_info d).name = "")
    (hover : (extract_company_info d).overview = "") :
    (process_about_file (.file "acme-corp_about.txt" d)).map CompanyInfo.name =
      some "Acme Corp" := by
  have hde : d.isEmpty = false := by
    cases d with
    | nil => exact absurd rfl hne
    | cons x xs => rfl
  have hbase : (splitOnChar '/' "acme-corp_about.txt").getLast?.getD "acme-corp_about.txt"
      = "acme-corp_about.txt" := by decide
  have h0 : ("" : String).isEmpty = true := rfl
  have h1 : strContains "acme-corp_about.txt" "_" = true := by decide
  have h2 : pyTitle (pyReplace (splitFirstUnderscore "acme-corp_about.txt") "-" " ")
      = "Acme Corp" := by decide
  have h3 : ¬ ("acme-corp_about.txt" = "in_memory_content") := by decide
  have h4 : ("Acme Corp" : String).isEmpty = false := rfl
  simp [process_about_file, basename, hde, hname, hover, hbase, h0, h1, h2, h3, h4]

/-- C7 witness at a concrete contentless document. -/
theorem C7_filename_name_synthesis_witness :
    (process_about_file (.file "acme-corp_about.txt" c7Doc)).map CompanyInfo.name =
      some "Acme Corp" :=
  C7_filename_name_synthesis c7Doc (List.cons_ne_nil _ _) (by decide) (by decide)

/-- C2 counterexample: the constructor shared by every section scraper
raises instead of yielding an empty result when the document is missing —
a path to a non-existent file raises `FileNotFoundError`, and providing
neither a file nor content raises `ValueError`. -/
theorem C2_counterexample :
    scraperInit [] (some "skills_expanded_html.txt") none = .error "FileNotFoundError" ∧
    scraperInit [] none none =
      .error "ValueError: Either html_file or html_content must be provided" :=
  ⟨rfl, rfl⟩

/-- C2 amended: the extract methods themselves are total with an empty
default — when every anchor variant of a section is absent the extractor
returns the empty list — but a missing or empty input document makes the
scraper constructor raise (the exception is swallowed by the assembler's
`try`, not inside the extractor). -/
theorem C2_anchor_missing_yields_empty (d : Doc)
    (hsk : findMain d "Skills" = none)
    (hex : findMain d "Experience" = none)
    (hed : findMain d "Education" = none)
    (hl1 : findMain d "Languages" = none)
    (hl2 : findMain d "Language" = none)
    (hc1 : findMain d "Licenses & certifications" = none)
    (hc2 : findMain d "Licenses & Certifications" = none)
    (hc3 : findMain d "Licenses" = none)
    (hpr : findMain d "Projects" = none) :
    SkillsScraper.extract_skills d = [] ∧
    ExperienceScraper.extract_experience d = [] ∧
    EducationScraper.extract_education d = [] ∧
    LanguageScraper.extract_languages d = [] ∧
    LicenseCertificationScraper.extract_licenses_certifications d = [] ∧
    ProjectScraper.extract_projects d = [] := by
  refine ⟨?_, ?_, ?_, ?_, ?_, ?_⟩ <;>
    simp [SkillsScraper.extract_skills, ExperienceScraper.extract_experience,
          EducationScraper.extract_education, LanguageScraper.extract_languages,
          LicenseCertificationScraper.extract_licenses_certifications,
          ProjectScraper.extract_projects, hsk, hex, hed, hl1, hl2, hc1, hc2, hc3, hpr]

theorem toList_append (a b : String) : (a ++ b).toList = a.toList ++ b.toList := by
  cases a; cases b; rfl

theorem pyStartsWith_normalizeUrl (h : String) :
    pyStartsWith (normalizeUrl h) "http" = true := by
  unfold normalizeUrl
  split
  · next hc => exact hc
  · next hc =>
    unfold pyStartsWith
    rw [toList_append]
    rw [List.isPrefixOf_iff_prefix]
    exact (by decide : "http".toList <+: "https://www.linkedin.com".toList).trans
      (List.prefix_append _ _)

theorem itemUrl_absolute (item : Node) (u : String) (h : itemUrl item = some u) :
    pyStartsWith u "http" = true := by
  unfold itemUrl at h
  split at h
  · exact absurd h (by simp)
  · split at h
    · split at h
      · split at h
        · exact (Option.some.inj h) ▸ pyStartsWith_normalizeUrl _
        · exact absurd h (by simp)
      · exact absurd h (by simp)
    · exact absurd h (by simp)

theorem tryExpand_mem_hit (spec : SectionSpec) (b : Builder) (d : Doc)
    (hd : b.html_content_dict ≠ [])
    (hk : b.html_content_dict.lookup spec.memKey = some d)
    (hne : d ≠ []) :
    tryExpand spec b = some (spec.expandFn d) := by
  have hdd : b.html_content_dict.isEmpty = false := by
    cases hb : b.html_content_dict with
    | nil => exact absurd hb hd
    | cons x xs => rfl
  have hde : d.isEmpty = false := by
    cases hb : d with
    | nil => exact absurd hb hne
    | cons x xs => rfl
  simp [tryExpand, hk, dictTruthy, hdd, scraperInit, optTruthyDoc, hde]

theorem sectionLoop_expansion_hit (spec : SectionSpec) (b : Builder) (r : List String)
    (hexp : tryExpand spec b = some r) :
    ∀ (l : List Node) (acc : List String) (s : Node),
      (l.filter (sectionMatches spec)).head? = some s →
      strContains (s.getTextSep " | ") "Show all" = true →
      sectionLoop spec b l acc = r := by
  intro l
  induction l with
  | nil => intro acc s h _; simp at h
  | cons n rest ih =>
    intro acc s hhead hshow
    by_cases hm : sectionMatches spec n = true
    · rw [List.filter_cons_of_pos hm] at hhead
      obtain rfl : n = s := by simpa using hhead
      cases hh : sectionHeader n with
      | none => exact absurd hm (by simp [sectionMatches, hh])
      | some hdr =>
        have hmt : spec.headerMatch (hdr.getTextSep "") = true := by
          simpa [sectionMatches, hh] using hm
        simp only [sectionLoop, hh]
        simp [hmt, hshow, hexp]
    · rw [List.filter_cons_of_neg (by simpa using hm)] at hhead
      cases hh : sectionHeader n with
      | none =>
        simp only [sectionLoop, hh]
        exact ih acc s hhead hshow
      | some hdr =>
        have hmf : spec.headerMatch (hdr.getTextSep "") = false := by
          have h2 : ¬ (sectionMatches spec n = true) := hm
          simp [sectionMatches, hh] at h2
          exact h2
        simp only [sectionLoop, hh]
        simp only [hmf]
        simp only [Bool.false_eq_true, if_false]
        exact ih acc s hhead hshow

/-- C1: for each of the six sections (experiences, education, skills,
languages, licenses/certifications, projects), when the first matching
profile-card section's flattened text contains `Show all` and the
in-memory mapping holds the (non-empty) `<section>_expanded` document `d`,
the assembled section equals the delegated extractor's output on `d`,
replacing the inline text — and this holds although a same-named session
file also exists, so the in-memory document wins the tie-break. -/
theorem C1_expanded_document_wins
    (spec : SectionSpec) (hspec : spec ∈ sectionSpecs) (b : Builder)
    (d dFile : Doc) (s : Node)
    (hd : b.html_content_dict ≠ [])
    (hk : b.html_content_dict.lookup spec.memKey = some d)
    (hne : d ≠ [])
    (hfile : b.sessionFs.lookup spec.fileName = some dFile)
    (hhead : ((profileSections b.soup).filter (sectionMatches spec)).head? = some s)
    (hshow : strContains (s.getTextSep " | ") "Show all" = true) :
    extractSection spec b = spec.expandFn d := by
  clear hspec hfile
  unfold extractSection
  exact sectionLoop_expansion_hit spec b _ (tryExpand_mem_hit spec b d hd hk hne)
    (profileSections b.soup) [] s hhead hshow

/-- C1 witness: the truncated Experience card of the fixture is replaced
by the expanded extractor's output although a stale session file exists. -/
theorem C1_expanded_document_wins_witness :
    extractSection experiencesSpec c1Builder =
      ExperienceScraper.extract_experience c1Expanded :=
  C1_expanded_document_wins experiencesSpec (by simp [sectionSpecs]) c1Builder
    c1Expanded c1FileDoc c1Section (List.cons_ne_nil _ _) rfl (List.cons_ne_nil _ _)
    rfl rfl (by decide)

/-- C3: a URL belongs to the extracted set exactly when some experience
list item produces it; an item whose caption lacks `present`
(case-insensitively) produces nothing; an item whose caption contains
`present` produces its first `/company/`-href anchor's URL, absolutized by
`normalizeUrl` (relative hrefs get the `https://www.linkedin.com`
prefix). -/
theorem C3_present_items_yield_company_urls :
    (∀ (d : Doc) (u : String),
        u ∈ extract_current_companies (.content d) ↔
          ∃ item ∈ companyItems d, itemUrl item = some u) ∧
    (∀ item cap, itemCaption item = some cap →
        strContains (pyLower (cap.getTextSep "")) "present" = false →
        itemUrl item = none) ∧
    (∀ item cap link href,
        itemCaption item = some cap →
        strContains (pyLower (cap.getTextSep "")) "present" = true →
        itemCompanyLink item = some link →
        link.attr "href" = some href →
        itemUrl item = some (normalizeUrl href)) := by
  refine ⟨?_, ?_, ?_⟩
  · intro d u
    simp [extract_current_companies, collectCompanyUrls, List.mem_dedup, List.mem_filterMap]
  · intro item cap hcap hno
    unfold itemUrl
    rw [hcap]
    simp [hno]
  · intro item cap link href hcap hyes hlink hhref
    unfold itemUrl
    rw [hcap]
    simp [hyes, hlink, hhref]

/-- C3 witness: the current-experience item of the three-entry fixture
yields exactly its absolutized company URL. -/
theorem C3_present_items_yield_company_urls_witness :
    itemUrl c3ItemPresent = some "https://www.linkedin.com/company/acme/" :=
  C3_present_items_yield_company_urls.2.2 c3ItemPresent c3Cap c3Link "/company/acme/"
    rfl (by decide) rfl rfl

/-- C4: for every input the result is duplicate-free (set semantics: two
entries with the same company URL collapse) with every member an absolute
(`http`-prefixed) URL, and the guarded error path (a non-string input
raises `ValueError`, which is caught) produces the empty result. -/
theorem C4_set_semantics_and_error_empty (src : HtmlSource) :
    (extract_current_companies src).Nodup ∧
    (∀ u ∈ extract_current_companies src, pyStartsWith u "http" = true) ∧
    extract_current_companies .notStr = [] := by
  refine ⟨?_, ?_, rfl⟩
  · cases src <;> simp [extract_current_companies, List.nodup_dedup]
  · intro u hu
    cases src with
    | notStr => simp [extract_current_companies] at hu
    | path nm d =>
      simp [extract_current_companies, List.mem_dedup, collectCompanyUrls,
            List.mem_filterMap] at hu
      obtain ⟨item, _, hiu⟩ := hu
      exact itemUrl_absolute item u hiu
    | content d =>
      simp [extract_current_companies, List.mem_dedup, collectCompanyUrls,
            List.mem_filterMap] at hu
      obtain ⟨item, _, hiu⟩ := hu
      exact itemUrl_absolute item u hiu

/-- C4 witness at the three-entry fixture (where the relative and the
absolute spelling of the same company URL collapse to one entry). -/
theorem C4_set_semantics_and_error_empty_witness :
    (extract_current_companies (.content c3ExpDoc)).Nodup ∧
    (∀ u ∈ extract_current_companies (.content c3ExpDoc), pyStartsWith u "http" = true) ∧
    extract_current_companies .notStr = [] :=
  C4_set_semantics_and_error_empty (.content c3ExpDoc)

/-- C2 witness for the amended statement at the empty document. -/
theorem C2_anchor_missing_yields_empty_witness :
    SkillsScraper.extract_skills [] = [] ∧
    ExperienceScraper.extract_experience [] = [] ∧
    EducationScraper.extract_education [] = [] ∧
    LanguageScraper.extract_languages [] = [] ∧
    LicenseCertificationScraper.extract_licenses_certifications [] = [] ∧
    ProjectScraper.extract_projects [] = [] :=
  C2_anchor_missing_yields_empty [] rfl rfl rfl rfl rfl rfl rfl rfl rfl

/-- C9: the assembled profile dictionary has exactly the ten fixed keys in
order; each list section is present as a (possibly empty) list, the
companies as a list of records, and each scalar as a string or null —
never a missing key, for every assembler state. -/
theorem C9_fixed_profile_keys (b : Builder) :
    ((b.scrape_profile).map Prod.fst = profileKeys) ∧
    (∀ k, k ∈ (["experiences", "education", "skills", "languages",
                "licenses-certifications", "projects"] : List String) →
        ∃ l, (b.scrape_profile).lookup k = some (PValue.list l)) ∧
    (∃ cs, (b.scrape_profile).lookup "current_companies" = some (PValue.companies cs)) ∧
    (∀ k, k ∈ (["name", "headline", "about"] : List String) →
        ∃ v, (b.scrape_profile).lookup k = some v ∧
          (v = PValue.null ∨ ∃ s, v = PValue.str s)) := by
  have hval : ∀ o : Option String,
      scalarValue o = PValue.null ∨ ∃ s, scalarValue o = PValue.str s := by
    intro o
    cases o with
    | none => exact Or.inl rfl
    | some s => exact Or.inr ⟨s, rfl⟩
  refine ⟨rfl, ?_, ⟨_, rfl⟩, ?_⟩
  · intro k hk
    simp only [List.mem_cons, List.not_mem_nil, or_false] at hk
    rcases hk with rfl | rfl | rfl | rfl | rfl | rfl <;> exact ⟨_, rfl⟩
  · intro k hk
    simp only [List.mem_cons, List.not_mem_nil, or_false] at hk
    rcases hk with rfl | rfl | rfl <;> exact ⟨_, rfl, hval _⟩

/-- C9 witness at a concrete assembler state. -/
theorem C9_fixed_profile_keys_witness :
    ∃ l, (c1Builder.scrape_profile).lookup "experiences" = some (PValue.list l) :=
  (C9_fixed_profile_keys c1Builder).2.1 "experiences" (by simp)

theorem companiesLoop_mem (dict : List (String × Doc)) :
    ∀ (ks : List String) (acc : List CompanyInfo) (processed : List String)
      (ci : CompanyInfo), ci ∈ companiesLoop dict ks acc processed →
      ci ∈ acc ∨ ci.name ≠ "" := by
  intro ks
  induction ks with
  | nil =>
    intro acc processed ci h
    exact Or.inl (by simpa [companiesLoop] using h)
  | cons k ks ih =>
    intro acc processed ci h
    simp only [companiesLoop] at h
    split at h
    · exact ih _ _ _ h
    · split at h
      · split at h
        · next ci2 hp hcond =>
          rcases ih _ _ _ h with hmem | hname
          · rcases List.mem_append.mp hmem with h1 | h2
            · exact Or.inl h1
            · have he : ci = ci2 := by simpa using h2
              subst he
              refine Or.inr ?_
              intro hcontra
              rw [hcontra] at hcond
              have hfalse : (!("" : String).isEmpty) = false := by decide
              rw [hfalse, Bool.false_and] at hcond
              exact Bool.false_ne_true hcond
          · exact Or.inr hname
        · exact ih _ _ _ h
      · exact ih _ _ _ h

theorem company_keys_dict_nonempty (b : Builder) (h : b.company_keys ≠ []) :
    b.html_content_dict.isEmpty = false := by
  cases hb : b.html_content_dict with
  | nil => exact absurd (by simp [Builder.company_keys, hb]) h
  | cons x xs => rfl

/-- C10: on the in-memory company path every assembled record has a
non-empty name — a record whose extracted name is empty is silently
dropped even when its overview is non-empty — and in-memory content never
triggers filename-based synthesis: processing in-memory content whose
extracted name is empty leaves the name empty. -/
theorem C10_in_memory_company_names_nonempty :
    (∀ b : Builder, b.company_keys ≠ [] →
        ∀ ci ∈ b.extract_companies, ci.name ≠ "") ∧
    (∀ d : Doc, d ≠ [] → (extract_company_info d).name = "" →
        (process_about_file (.content d)).map CompanyInfo.name = some "") := by
  constructor
  · intro b hkeys ci hci
    have hdict : b.html_content_dict.isEmpty = false := company_keys_dict_nonempty b hkeys
    have hkb : b.company_keys.isEmpty = false := by
      cases hb : b.company_keys with
      | nil => exact absurd hb hkeys
      | cons x xs => rfl
    rw [Builder.extract_companies] at hci
    rw [if_pos (by simp [dictTruthy, hdict, hkb])] at hci
    rcases companiesLoop_mem _ _ _ _ _ hci with h | h
    · simp at h
    · exact h
  · intro d hne hname
    have hde : d.isEmpty = false := by
      cases hb : d with
      | nil => exact absurd hb hne
      | cons x xs => rfl
    simp [process_about_file, hde, hname]

/-- C10 witness: an in-memory company document with a non-empty overview
but an empty extracted name yields a record that is dropped from the
assembled list. -/
theorem C10_in_memory_company_names_nonempty_witness :
    (∀ ci ∈ c10Builder.extract_companies, ci.name ≠ "") ∧
    (process_about_file (.content c10OverviewDoc)).map CompanyInfo.name = some "" ∧
    c10Builder.extract_companies = [] :=
  ⟨C10_in_memory_company_names_nonempty.1 c10Builder (by decide),
   C10_in_memory_company_names_nonempty.2 c10OverviewDoc (List.cons_ne_nil _ _) (by decide),
   by decide⟩

theorem companiesLoop_eq_dedupByName (dict : List (String × Doc)) :
    ∀ (ks : List String) (acc : List CompanyInfo) (processed : List String),
      companiesLoop dict ks acc processed =
        acc ++ dedupByName (validInfos dict ks) processed := by
  intro ks
  induction ks with
  | nil => intro acc processed; simp [companiesLoop, validInfos, dedupByName]
  | cons k ks ih =>
    intro acc processed
    cases hl : dict.lookup k with
    | none =>
      have hv : validInfos dict (k :: ks) = validInfos dict ks := by
        simp [validInfos, List.filterMap_cons, hl]
      rw [hv]
      simp only [companiesLoop, hl]
      exact ih acc processed
    | some d =>
      cases hp : process_about_file (.content d) with
      | none =>
        have hv : validInfos dict (k :: ks) = validInfos dict ks := by
          simp [validInfos, List.filterMap_cons, hl, hp]
        rw [hv]
        simp only [companiesLoop, hl, hp]
        exact ih acc processed
      | some ci =>
        by_cases hn : ci.name.isEmpty = true
        · have hv : validInfos dict (k :: ks) = validInfos dict ks := by
            simp [validInfos, List.filterMap_cons, hl, hp, hn]
          rw [hv]
          simp only [companiesLoop, hl, hp, hn, Bool.not_true, Bool.false_and]
          rw [if_neg (by simp)]
          exact ih acc processed
        · have hn' : ci.name.isEmpty = false := by simpa using hn
          have hv : validInfos dict (k :: ks) = ci :: validInfos dict ks := by
            simp [validInfos, List.filterMap_cons, hl, hp, hn']
          rw [hv]
          by_cases hc : processed.contains ci.name = true
          · simp only [companiesLoop, hl, hp, hn', hc, Bool.not_true, Bool.not_false,
                       Bool.true_and, Bool.and_false]
            rw [if_neg (by simp)]
            rw [ih acc processed]
            congr 1
            simp only [dedupByName]
            rw [if_pos hc]
          · have hc' : processed.contains ci.name = false := by simpa using hc
            simp only [companiesLoop, hl, hp, hn', hc', Bool.not_false, Bool.and_self]
            rw [if_pos trivial]
            rw [ih (acc ++ [ci]) (ci.name :: processed)]
            simp only [dedupByName]
            rw [if_neg hc]
            simp

theorem dedupByName_names_nodup :
    ∀ (l : List CompanyInfo) (seen : List String),
      ((dedupByName l seen).map (fun ci => ci.name)).Nodup ∧
      (∀ n ∈ (dedupByName l seen).map (fun ci => ci.name), n ∉ seen) := by
  intro l
  induction l with
  | nil => intro seen; simp [dedupByName]
  | cons ci rest ih =>
    intro seen
    by_cases hc : seen.contains ci.name = true
    · simp only [dedupByName]
      rw [if_pos hc]
      exact ih seen
    · have hnc : ci.name ∉ seen := by
        intro hmem
        exact hc (List.elem_iff.mpr hmem)
      simp only [dedupByName]
      rw [if_neg hc]
      have hrec := ih (ci.name :: seen)
      refine ⟨?_, ?_⟩
      · simp only [List.map_cons, List.nodup_cons]
        refine ⟨?_, hrec.1⟩
        intro hmem
        exact (hrec.2 ci.name hmem) (List.mem_cons_self _ _)
      · intro n hn
        simp only [List.map_cons, List.mem_cons] at hn
        rcases hn with rfl | hn
        · exact hnc
        · intro hmem
          exact (hrec.2 n hn) (List.mem_cons_of_mem _ hmem)

/-- C8: company extraction consumes exactly the in-memory keys with prefix
`company_` and suffix `_html`, excluding the `_main_html` and `_about_html`
suffixed keys; when such keys exist the result is the key-ordered list of
successfully-processed records de-duplicated by name keeping the first
occurrence (so names are pairwise distinct), with no fallback; only with
no such key does it fall back, first to the session directory's
`company_about_pages` about-files (when that directory exists), then to
the legacy directory. -/
theorem C8_company_key_selection_and_fallback (b : Builder) :
    (∀ k, k ∈ b.company_keys ↔
        (k ∈ b.html_content_dict.map Prod.fst ∧
         pyStartsWith k "company_" = true ∧ pyEndsWith k "_html" = true ∧
         pyEndsWith k "_main_html" = false ∧ pyEndsWith k "_about_html" = false)) ∧
    (b.company_keys ≠ [] →
        b.extract_companies = dedupByName (validInfos b.html_content_dict b.company_keys) [] ∧
        ((b.extract_companies.map (fun ci => ci.name)).Nodup)) ∧
    (b.company_keys = [] → optTruthyStr b.session_dir = true →
      ∀ files, b.sessionCompanyFs = some files →
        b.extract_companies = aboutFilesCompanies files) ∧
    (b.company_keys = [] → (optTruthyStr b.session_dir = false ∨ b.sessionCompanyFs = none) →
        b.extract_companies = (match b.legacyFs with
          | some files => aboutFilesCompanies files
          | none => [])) := by
  refine ⟨?_, ?_, ?_, ?_⟩
  · intro k
    simp [Builder.company_keys, List.mem_filter, companyKeyFilter, Bool.and_eq_true,
          Bool.not_eq_true', and_assoc]
  · intro hkeys
    have hdict : b.html_content_dict.isEmpty = false := company_keys_dict_nonempty b hkeys
    have hkb : b.company_keys.isEmpty = false := by
      cases hb : b.company_keys with
      | nil => exact absurd hb hkeys
      | cons x xs => rfl
    have hbranch : b.extract_companies =
        dedupByName (validInfos b.html_content_dict b.company_keys) [] := by
      rw [Builder.extract_companies, if_pos (by simp [dictTruthy, hdict, hkb])]
      rw [companiesLoop_eq_dedupByName]
      simp
    refine ⟨hbranch, ?_⟩
    rw [hbranch]
    exact (dedupByName_names_nodup _ []).1
  · intro hkeys hsess files hfiles
    have hkb : b.company_keys.isEmpty = true := by rw [hkeys]; rfl
    rw [Builder.extract_companies]
    rw [if_neg (by simp [hkb])]
    rw [if_pos (by simp [hsess, hfiles])]
    rw [hfiles]
    rfl
  · intro hkeys hcond
    have hkb : b.company_keys.isEmpty = true := by rw [hkeys]; rfl
    rw [Builder.extract_companies]
    rw [if_neg (by simp [hkb])]
    rw [if_neg ?hcneg]
    case hcneg =>
      rcases hcond with h1 | h1 <;> simp [h1]

/-- C8 witness: with two resolved company keys extracting the same name,
the raw `_main_html`/`_about_html` keys are ignored, the session directory
is not consulted, and the duplicate name collapses to one record. -/
theorem C8_company_key_selection_and_fallback_witness :
    c8Builder.extract_companies =
      dedupByName (validInfos c8Builder.html_content_dict c8Builder.company_keys) [] ∧
    c8Builder.extract_companies.map (fun ci => ci.name) = ["Acme"] :=
  ⟨((C8_company_key_selection_and_fallback c8Builder).2.1 (by decide)).1, by decide⟩

end LinkedinScraper
